import Mathlib

/-!
Verification development for the rtsp_streamer bridge
(`src/stream/rtsp_mqtt.py`): a shallow embedding of the parts of the
program the specification talks about, together with theorems settling
the specification claims against it.
-/

set_option linter.all false
set_option maxRecDepth 100000

namespace RtspStreamer

/-! ### Shared RTSP source (`SharedRTSPPlayer`)

State projection of `SharedRTSPPlayer`: `_active_clients`, `player`
(a `MediaPlayer` whose `video` attribute may be absent) and `relay`.
The asynchronous lock makes each public entry point atomic, so the
methods are embedded as pure state transformers. -/

/-- Embedding of an aiortc `MediaPlayer` as far as the bridge inspects it:
only its `video` track (possibly `None`) matters. -/
structure MediaPlayerH where
  video : Option Unit
deriving Repr, DecidableEq

/-- State of `SharedRTSPPlayer` relevant to the claims: the
`_active_clients` counter (a natural number: the code clamps it at zero),
the optional puller handle `player` and the optional `relay` handle. -/
structure CamState where
  activeClients : Nat
  player : Option MediaPlayerH
  relay : Option Unit
deriving Repr, DecidableEq

/-- Initial state set up by `SharedRTSPPlayer.__init__`:
`_active_clients = 0`, `player = None`, no relay. -/
def initCam : CamState :=
  { activeClients := 0, player := none, relay := none }

/-- Embedding of `_create_player` (lines 476-543).  `createOk = true`
models the `MediaPlayer` constructor succeeding with a video track;
`createOk = false` models it raising, in which case `self.player` is left
unassigned and the exception propagates (first component `true`). -/
def createPlayer (createOk : Bool) (s : CamState) : Bool × CamState :=
  if createOk then (false, { s with player := some { video := some () } })
  else (true, s)

/-- Embedding of `_start_locked` (lines 575-581): if `player is None`,
assign `self.relay = MediaRelay()` and then run `_create_player`, whose
exception (if any) propagates. -/
def startLocked (createOk : Bool) (s : CamState) : Bool × CamState :=
  if s.player.isNone then
    createPlayer createOk { s with relay := some () }
  else (false, s)

/-- Embedding of `_stop_locked` (lines 583-637): clears `self.player` and
`self.relay` (the counter is untouched). -/
def stopLocked (s : CamState) : CamState :=
  { s with player := none, relay := none }

/-- Embedding of `SharedRTSPPlayer.add_client` (lines 685-700): increment
`_active_clients`; when the new value is exactly 1, start the player,
whose failure propagates out of `add_client` (first component `true`). -/
def addClient (createOk : Bool) (s : CamState) : Bool × CamState :=
  let s1 := { s with activeClients := s.activeClients + 1 }
  if s1.activeClients = 1 then startLocked createOk s1
  else (false, s1)

/-- Embedding of `SharedRTSPPlayer.remove_client` (lines 702-721):
`_active_clients = max(0, _active_clients - 1)` (natural subtraction),
and when the new value is 0 the player is stopped. -/
def removeClient (s : CamState) : CamState :=
  let s1 := { s with activeClients := s.activeClients - 1 }
  if s1.activeClients = 0 then stopLocked s1
  else s1

/-- Embedding of `SharedRTSPPlayer.shutdown` (lines 760-764): zero the
counter and stop the player. -/
def shutdownCam (s : CamState) : CamState :=
  stopLocked { s with activeClients := 0 }

/-- Video tracks handed out by `get_track`: a relay subscription or a
`NonBufferedVideoTrack` wrapper. -/
inductive HandedTrack where
  | relayTrack
  | wrapperTrack
deriving Repr, DecidableEq

/-- Embedding of `SharedRTSPPlayer.get_track` (lines 723-758): with no
player (or a player without video) it returns `(None, False)`; the relay
branch returns `(track, True)` and the wrapper branch also returns
`(track, True)`. -/
def getTrack (useRelay : Bool) (s : CamState) : Option HandedTrack × Bool :=
  match s.player with
  | none => (none, false)
  | some p =>
    match p.video with
    | none => (none, false)
    | some _ =>
      if useRelay && s.relay.isSome then (some .relayTrack, true)
      else (some .wrapperTrack, true)

/-- Client-facing operations of the shared source considered by claim C1. -/
inductive CamOp where
  | add
  | remove
deriving Repr, DecidableEq

/-- Run one `add_client`/`remove_client` call (creation succeeding, as in
the C1 scenario) on a state. -/
def camStep (s : CamState) (op : CamOp) : CamState :=
  match op with
  | .add => (addClient true s).2
  | .remove => removeClient s

/-- Run a finite sequence of `add_client`/`remove_client` calls from the
initial state. -/
def runOps (ops : List CamOp) : CamState :=
  ops.foldl camStep initCam

/-- Saturating counter step: what `_active_clients` does on one call. -/
def satStep (c : Nat) (op : CamOp) : Nat :=
  match op with
  | .add => c + 1
  | .remove => c - 1

/-- Fold of the saturating counter over a call sequence. -/
def satFold (ops : List CamOp) : Nat :=
  ops.foldl satStep 0

/-- Number of `add_client` calls in a sequence. -/
def countAdds (ops : List CamOp) : Nat :=
  ops.countP (fun op => op = .add)

/-- Number of `remove_client` calls in a sequence. -/
def countRemoves (ops : List CamOp) : Nat :=
  ops.countP (fun op => op = .remove)

/-- States reachable by C1 traces: the player (with a video track) and the
relay exist exactly when the counter is positive. -/
def camGood (s : CamState) : Prop :=
  (s.player = if 0 < s.activeClients then some { video := some () } else none)
    ∧ (s.relay = if 0 < s.activeClients then some () else none)

/-! ### Peer session ICE handling (`MQTTPublisher.handle_remote_ice`,
`handle_remote_offer`)

The remote-ICE payloads and the per-session pending queue.  Each handler
runs on the single event loop; a handler invocation is embedded as one
state transformer.  `applied` records, in order, the candidates passed to
`pc.addIceCandidate`. -/

/-- Embedding of a parsed ICE candidate as the bridge assembles it:
the SDP form after stripping a leading `a=`, plus the `sdpMid` and
`sdpMLineIndex` attached from the payload. -/
structure IceCandidateH where
  sdp : String
  sdpMid : Option String
  sdpMLineIndex : Option Int
deriving Repr, DecidableEq

/-- Incoming ICE message payload:
`candidate` is `None` for the end-of-candidates sentinel. -/
structure IcePayload where
  candidate : Option String
  sdpMid : Option String
  sdpMLineIndex : Option Int
deriving Repr, DecidableEq

/-- Per-session state relevant to ICE handling: the peer connection's
`connectionState` string, whether `setRemoteDescription` has completed
(`pc.remoteDescription is not None`), the `pending_ice` queue, and the
sequence of candidates handed to `pc.addIceCandidate` so far. -/
structure PeerIceState where
  connState : String
  remoteSet : Bool
  pending : List IceCandidateH
  applied : List IceCandidateH
deriving Repr, DecidableEq

/-- State of a session freshly created by `handle_remote_offer`
(`PeerContext.__init__`): empty pending queue, nothing applied,
remote description unset, connection state `new`. -/
def freshPeer : PeerIceState :=
  { connState := "new", remoteSet := false, pending := [], applied := [] }

/-- Strip a leading `a=` from the candidate SDP, as
`handle_remote_ice` does. -/
def stripAttr (s : String) : String :=
  if s.startsWith "a=" then s.drop 2 else s

/-- Embedding of aiortc's `candidate_from_sdp` plus the two attribute
assignments: the bridge builds the candidate from the stripped SDP and
attaches `sdpMid`/`sdpMLineIndex` from the payload. -/
def candOfPayload (sdp : String) (p : IcePayload) : IceCandidateH :=
  { sdp := stripAttr sdp, sdpMid := p.sdpMid, sdpMLineIndex := p.sdpMLineIndex }

/-- Embedding of `MQTTPublisher.handle_remote_ice` (lines 1181-1242) for a
session that exists: a `None` candidate is ignored; in connection states
`connected`, `closed`, `failed` the pending queue is cleared and the
candidate dropped; otherwise the candidate is parsed and either appended
to `pending_ice` (remote description unset) or applied immediately. -/
def handleRemoteIce (p : IcePayload) (s : PeerIceState) : PeerIceState :=
  match p.candidate with
  | none => s
  | some sdp =>
    if s.connState = "connected" ∨ s.connState = "closed" ∨ s.connState = "failed"
    then { s with pending := [] }
    else
      let cand := candOfPayload sdp p
      if s.remoteSet = false then { s with pending := s.pending ++ [cand] }
      else { s with applied := s.applied ++ [cand] }

/-- Embedding of the remote-description step of `handle_remote_offer`
(lines 1092-1110): `setRemoteDescription` completes, then every queued
candidate is passed to `pc.addIceCandidate` in queue order, then the
queue is cleared. -/
def setRemoteAndFlush (s : PeerIceState) : PeerIceState :=
  { s with remoteSet := true, applied := s.applied ++ s.pending, pending := [] }

/-- Fold a list of incoming ICE payloads through `handle_remote_ice`. -/
def runIce (ps : List IcePayload) (s : PeerIceState) : PeerIceState :=
  ps.foldl (fun st p => handleRemoteIce p st) s

/-- The candidate that a non-sentinel payload turns into. -/
def candOf (p : IcePayload) : IceCandidateH :=
  candOfPayload (p.candidate.getD "") p

/-! ### Per-session teardown (`MQTTPublisher._cleanup_peer`)

The teardown procedure is straight-line asynchronous code under the
cleanup lock; it is embedded as the trace of externally visible steps it
performs, in program order. -/

/-- Steps of `_cleanup_peer` (lines 920-1007), in the order the procedure
can emit them. -/
inductive CleanupStep where
  /-- `ctx.relay_track.stop()` -/
  | relayTrackStop
  /-- stopping every transceiver of the peer connection -/
  | transceiverStop
  /-- `await asyncio.wait_for(ctx.pc.close(), timeout=2.0)`; the flag
  records whether the 2-second timeout elapsed instead of a clean close -/
  | pcClose (timedOut : Bool)
  /-- `ctx.pending_ice.clear()` -/
  | clearPendingIce
  /-- `await self.camera.remove_client(remote_id)` -/
  | removeClientCall
  /-- `await asyncio.sleep(0.1)` -/
  | drainSleep
  /-- `gc.collect()` -/
  | gcCollect
deriving Repr, DecidableEq

/-- Trace of `_cleanup_peer`: `hasRelayTrack` is whether
`ctx.relay_track is not None`, `hasCamera` whether `self.camera` is set,
`closeTimedOut` whether `pc.close()` hit the 2-second timeout. -/
def cleanupTrace (hasRelayTrack hasCamera closeTimedOut : Bool) :
    List CleanupStep :=
  (if hasRelayTrack then [CleanupStep.relayTrackStop] else [])
    ++ [CleanupStep.transceiverStop, CleanupStep.pcClose closeTimedOut,
        CleanupStep.clearPendingIce]
    ++ (if hasCamera then [CleanupStep.removeClientCall] else [])
    ++ [CleanupStep.drainSleep, CleanupStep.gcCollect]

/-- Recognizer for the per-session track stop step. -/
def isTrackStop (e : CleanupStep) : Bool :=
  match e with
  | .relayTrackStop => true
  | _ => false

/-- Recognizer for the peer-connection close step (clean or timed out). -/
def isPcClose (e : CleanupStep) : Bool :=
  match e with
  | .pcClose _ => true
  | _ => false

/-- Recognizer for the `remove_client` step. -/
def isRemoveClient (e : CleanupStep) : Bool :=
  match e with
  | .removeClientCall => true
  | _ => false

/-! ### ICE server configuration (`build_ice_servers`) -/

/-- A `urls` config value as passed through to `RTCIceServer`:
a single URL string or a list of URL strings. -/
inductive UrlsVal where
  | one (s : String)
  | many (l : List String)
deriving Repr, DecidableEq

/-- One entry of the `ice_servers` config list.  `urls = none` models a
dictionary without a `urls` key; `credentialType = none` models a missing
`credentialType` key (the code then defaults it to `"password"`). -/
structure IceServerEntry where
  urls : Option UrlsVal
  username : Option String
  credential : Option String
  credentialType : Option String
deriving Repr, DecidableEq

/-- Embedding of an aiortc `RTCIceServer`: the dataclass defaults are
`username = None`, `credential = None`, `credentialType = "password"`. -/
structure RTCIceServerH where
  urls : UrlsVal
  username : Option String
  credential : Option String
  credentialType : String
deriving Repr, DecidableEq

/-- The `ice_servers` key of the config dict handed to
`build_ice_servers`: absent, present but not a list, or a list. -/
inductive IceServersField where
  | absent
  | notList
  | entries (l : List IceServerEntry)
deriving Repr, DecidableEq

/-- Python truthiness of an optional string (`None` and `""` are falsy),
as used by `if username and credential`. -/
def truthyStr (o : Option String) : Bool :=
  match o with
  | none => false
  | some s => !(s == "")

/-- Embedding of the `RTCIceServer(**kwargs)` construction in the loop of
`build_ice_servers` (lines 278-287): credentials are attached only when
both `username` and `credential` are truthy. -/
def mkIceServer (u : UrlsVal) (e : IceServerEntry) : RTCIceServerH :=
  if truthyStr e.username && truthyStr e.credential then
    { urls := u, username := e.username, credential := e.credential,
      credentialType := e.credentialType.getD "password" }
  else
    { urls := u, username := none, credential := none,
      credentialType := "password" }

/-- The default fallback STUN URL (line 298). -/
def defaultStunUrl : String := "stun:stun.l.google.com:19302"

/-- The `RTCIceServer(urls=[url])` built in the default branch
(line 299). -/
def defaultStunServer : RTCIceServerH :=
  { urls := .many [defaultStunUrl], username := none, credential := none,
    credentialType := "password" }

/-- Embedding of `build_ice_servers` (lines 256-303): `add_default` is set
only in the branch where the key is present as an empty list; entries
without a `urls` key are skipped; when the key is absent or not a list the
accumulator is returned empty. -/
def buildIceServers (f : IceServersField) : List RTCIceServerH :=
  match f with
  | .entries l =>
    if l.length ≠ 0 then
      l.filterMap (fun e =>
        match e.urls with
        | none => none
        | some u => some (mkIceServer u e))
    else [defaultStunServer]
  | _ => []

/-! ### Non-buffered wrapper track (`NonBufferedVideoTrack`)

State slots of the wrapper (`_latest_frame`, `_stopping`) together with
whether the `_fetch_frames` background task is still alive.  `recv` is
embedded with explicit fuel: each fuel unit is one iteration of its
polling loop (`await asyncio.sleep(0.01)`), and `none` means the call is
still waiting after the given number of iterations.  The state is held
fixed while `recv` polls, modelling the scenario in which no further
upstream event occurs. -/

/-- State slots of a `NonBufferedVideoTrack`; frames are identified by a
number. -/
structure TrackState where
  latestFrame : Option Nat
  stopping : Bool
  taskAlive : Bool
deriving Repr, DecidableEq

/-- Wrapper state right after `__init__`/`start`: no frame yet, not
stopping, fetch task running. -/
def initTrack : TrackState :=
  { latestFrame := none, stopping := false, taskAlive := true }

/-- One successful `source_track.recv()` inside `_fetch_frames`:
overwrites the latest-frame slot (only while the task runs). -/
def frameArrives (f : Nat) (s : TrackState) : TrackState :=
  if s.taskAlive && !s.stopping then { s with latestFrame := some f } else s

/-- The upstream track erroring or ending: `_fetch_frames` catches the
error, breaks out of its loop, and its `finally` clears
`_latest_frame`.  `_stopping` is not touched. -/
def upstreamEnds (s : TrackState) : TrackState :=
  { s with taskAlive := false, latestFrame := none }

/-- Embedding of `NonBufferedVideoTrack.stop` (lines 385-395): sets
`_stopping`, cancels the fetch task and clears `_latest_frame`. -/
def stopTrack (s : TrackState) : TrackState :=
  { s with stopping := true, taskAlive := false, latestFrame := none }

/-- Outcome of a completed `recv` call: a frame, or an exception with the
given message. -/
inductive RecvOutcome where
  | frame (f : Nat)
  | raised (msg : String)
deriving Repr, DecidableEq

/-- Embedding of `NonBufferedVideoTrack.recv` (lines 369-383) with fuel:
while `_latest_frame is None and not _stopping` it sleeps and re-checks
(one fuel unit per iteration); once the loop exits it raises if
`_latest_frame` is still `None` and otherwise returns the frame.
`none` means still waiting when the fuel runs out. -/
def recvFuel : Nat → TrackState → Option RecvOutcome
  | 0, _ => none
  | n + 1, s =>
    if s.latestFrame.isNone && !s.stopping then recvFuel n s
    else
      match s.latestFrame with
      | some f => some (.frame f)
      | none => some (.raised "Track stopped before receiving frames")

/-! ### Status heartbeat payloads (`MQTTPublisher._publish`, `run_app`) -/

/-- JSON values occurring in status payloads. -/
inductive JsonVal where
  | str (v : String)
  | num (v : Nat)
  | bool (v : Bool)
deriving Repr, DecidableEq

/-- The status topic `device/<device_id>/status`. -/
def statusTopic (deviceId : String) : String :=
  "device/" ++ deviceId ++ "/status"

/-- The payload built by `MQTTPublisher._publish` (lines 1279-1289):
the four fixed keys plus `camera_ready` when a camera exists. -/
def periodicStatusPayload (deviceId : String) (ts : Nat)
    (cameraReady : Option Bool) : List (String × JsonVal) :=
  [("device_id", .str deviceId), ("device_type", .str "camera"),
   ("ts", .num ts), ("status", .str "alive")]
    ++ (match cameraReady with
        | some b => [("camera_ready", .bool b)]
        | none => [])

/-- Embedding of `MQTTPublisher._publish` (lines 1277-1292): the status is
built and published only while connected and not closed. -/
def publishPeriodic (connected closed : Bool) (deviceId : String) (ts : Nat)
    (cameraReady : Option Bool) : Option (String × List (String × JsonVal)) :=
  if connected && !closed then
    some (statusTopic deviceId, periodicStatusPayload deviceId ts cameraReady)
  else none

/-- The final status payload built in the shutdown path of `run_app`
(lines 1386-1390): only `device_id`, `ts` and `status`. -/
def shutdownStatusPayload (deviceId : String) (ts : Nat) :
    List (String × JsonVal) :=
  [("device_id", .str deviceId), ("ts", .num ts), ("status", .str "shutdown")]

/-- Embedding of the shutdown-status publish in `run_app` (lines
1385-1393): guarded by a truthy device id, the transport being connected
and the publisher not closed. -/
def publishShutdown (connected closed : Bool) (deviceId : String) (ts : Nat) :
    Option (String × List (String × JsonVal)) :=
  if !(deviceId == "") && connected && !closed then
    some (statusTopic deviceId, shutdownStatusPayload deviceId ts)
  else none

/-- The four required status keys of the claim. -/
def requiredStatusKeys : List String :=
  ["device_id", "device_type", "ts", "status"]

/-- Whether a payload carries the given key. -/
def hasKey (payload : List (String × JsonVal)) (k : String) : Bool :=
  payload.any (fun kv => kv.1 == k)

/-- Whether a payload carries all four required status keys. -/
def hasAllRequiredKeys (payload : List (String × JsonVal)) : Bool :=
  requiredStatusKeys.all (hasKey payload)

/-! ### Topic matching (`SDP_OFFER_PATTERN`, `ICE_OFFER_PATTERN`)

The two patterns are `([0-9a-zA-Z\-\_]+)/sdp/([^/]+)/offer` and
`([0-9a-zA-Z\-\_]+)/ice/([^/]+)/offer`, applied with `re.match` (anchored
at the start of the topic only).  Because the first character class
excludes `/` and the literal that follows each group starts with `/`, the
backtracking search is equivalent to greedy maximal munch, so the regex
is compiled to the deterministic matcher below. -/

/-- The character class `[0-9a-zA-Z\-\_]`. -/
def idChar (c : Char) : Bool :=
  c.isDigit || c.isLower || c.isUpper || c == '-' || c == '_'

/-- Match a literal character sequence at the head of the input, returning
the remainder. -/
def stripLit : List Char → List Char → Option (List Char)
  | [], rest => some rest
  | _ :: _, [] => none
  | p :: ps, c :: cs => if c == p then stripLit ps cs else none

/-- The characters of the `sdp` topic segment. -/
def sdpLit : List Char := ['s', 'd', 'p']

/-- The characters of the `ice` topic segment. -/
def iceLit : List Char := ['i', 'c', 'e']

/-- The characters of the `offer` topic segment. -/
def offerLit : List Char := ['o', 'f', 'f', 'e', 'r']

/-- Compilation of `re.match` with pattern
`([0-9a-zA-Z\-\_]+)/<mid>/([^/]+)/offer` over the topic characters:
group 1 is a maximal nonempty run of class characters, then the literal
`/<mid>/`, then group 2 as a maximal nonempty run of non-slash characters,
then the literal `/offer`; anything may follow.  Returns
`(group 1, group 2)`; group 2 is the extracted viewer id
(`_on_message`, lines 846-872). -/
def matchOfferTopic (mid : List Char) (cs : List Char) :
    Option (List Char × List Char) :=
  let dev := cs.takeWhile idChar
  let rest := cs.dropWhile idChar
  if dev.isEmpty then none
  else
    match stripLit ('/' :: mid ++ ['/']) rest with
    | none => none
    | some rest2 =>
      let vid := rest2.takeWhile (fun c => !(c == '/'))
      let rest3 := rest2.dropWhile (fun c => !(c == '/'))
      if vid.isEmpty then none
      else
        match stripLit ('/' :: offerLit) rest3 with
        | none => none
        | some _ => some (dev, vid)

/-- Modelled from the claim wording, for comparison with the code: a topic
is of the claimed form when it decomposes as
`<device>/<mid>/<id>/offer` — the whole topic, nothing trailing — with
`<device>` and `<id>` nonempty strings over `[0-9A-Za-z_-]`. -/
def claimFormTopic (mid : List Char) (cs : List Char) : Bool :=
  (List.range (cs.length + 1)).any (fun i =>
    let dev := cs.take i
    !dev.isEmpty && dev.all idChar &&
      (match stripLit ('/' :: mid ++ ['/']) (cs.drop i) with
       | none => false
       | some r2 =>
         (List.range (r2.length + 1)).any (fun j =>
           let vid := r2.take j
           !vid.isEmpty && vid.all idChar
             && decide (r2.drop j = '/' :: offerLit))))

/-! ### Device identity (`build_mqtt_settings`)

The device id is `hashlib.md5(rtsp_url.encode("utf-8")).hexdigest()[:16]`
(lines 234-236).  MD5 is embedded from its standard definition (RFC 1321),
on bytes as naturals below 256 and words as naturals reduced mod 2^32. -/

/-- One plus the largest 32-bit word. -/
def w32mod : Nat := 4294967296

/-- All 32 bits set; `wmask - x` is bitwise complement for `x < 2^32`. -/
def wmask : Nat := 4294967295

/-- Rotate a 32-bit word left by `s` bits. -/
def rotl32 (x s : Nat) : Nat :=
  ((x <<< s) ||| (x >>> (32 - s))) % w32mod

/-- The 64 MD5 sine-derived constants. -/
def md5K : List Nat := [
  0xd76aa478, 0xe8c7b756, 0x242070db, 0xc1bdceee,
  0xf57c0faf, 0x4787c62a, 0xa8304613, 0xfd469501,
  0x698098d8, 0x8b44f7af, 0xffff5bb1, 0x895cd7be,
  0x6b901122, 0xfd987193, 0xa679438e, 0x49b40821,
  0xf61e2562, 0xc040b340, 0x265e5a51, 0xe9b6c7aa,
  0xd62f105d, 0x02441453, 0xd8a1e681, 0xe7d3fbc8,
  0x21e1cde6, 0xc33707d6, 0xf4d50d87, 0x455a14ed,
  0xa9e3e905, 0xfcefa3f8, 0x676f02d9, 0x8d2a4c8a,
  0xfffa3942, 0x8771f681, 0x6d9d6122, 0xfde5380c,
  0xa4beea44, 0x4bdecfa9, 0xf6bb4b60, 0xbebfbc70,
  0x289b7ec6, 0xeaa127fa, 0xd4ef3085, 0x04881d05,
  0xd9d4d039, 0xe6db99e5, 0x1fa27cf8, 0xc4ac5665,
  0xf4292244, 0x432aff97, 0xab9423a7, 0xfc93a039,
  0x655b59c3, 0x8f0ccc92, 0xffeff47d, 0x85845dd1,
  0x6fa87e4f, 0xfe2ce6e0, 0xa3014314, 0x4e0811a1,
  0xf7537e82, 0xbd3af235, 0x2ad7d2bb, 0xeb86d391]

/-- The 64 MD5 per-round shift amounts. -/
def md5S : List Nat := [
  7, 12, 17, 22, 7, 12, 17, 22, 7, 12, 17, 22, 7, 12, 17, 22,
  5, 9, 14, 20, 5, 9, 14, 20, 5, 9, 14, 20, 5, 9, 14, 20,
  4, 11, 16, 23, 4, 11, 16, 23, 4, 11, 16, 23, 4, 11, 16, 23,
  6, 10, 15, 21, 6, 10, 15, 21, 6, 10, 15, 21, 6, 10, 15, 21]

/-- The MD5 round function for step `i`. -/
def md5F (i b c d : Nat) : Nat :=
  if i < 16 then (b &&& c) ||| ((wmask - b) &&& d)
  else if i < 32 then (d &&& b) ||| ((wmask - d) &&& c)
  else if i < 48 then b ^^^ c ^^^ d
  else c ^^^ (b ||| (wmask - d))

/-- The MD5 message-word index for step `i`. -/
def md5G (i : Nat) : Nat :=
  if i < 16 then i
  else if i < 32 then (5 * i + 1) % 16
  else if i < 48 then (3 * i + 5) % 16
  else (7 * i) % 16

/-- Little-endian word `g` of a 64-byte block. -/
def md5Word (block : List Nat) (g : Nat) : Nat :=
  block.getD (4 * g) 0 + block.getD (4 * g + 1) 0 * 256
    + block.getD (4 * g + 2) 0 * 65536 + block.getD (4 * g + 3) 0 * 16777216

/-- One MD5 step on the register quadruple. -/
def md5Step (block : List Nat) (st : Nat × Nat × Nat × Nat) (i : Nat) :
    Nat × Nat × Nat × Nat :=
  let f := md5F i st.2.1 st.2.2.1 st.2.2.2
  let sum := (st.1 + f + md5K.getD i 0 + md5Word block (md5G i)) % w32mod
  (st.2.2.2, (st.2.1 + rotl32 sum (md5S.getD i 0)) % w32mod, st.2.1, st.2.2.1)

/-- Process one 64-byte block: 64 steps, then add into the registers. -/
def md5Block (st : Nat × Nat × Nat × Nat) (block : List Nat) :
    Nat × Nat × Nat × Nat :=
  let r := (List.range 64).foldl (md5Step block) st
  ((st.1 + r.1) % w32mod, (st.2.1 + r.2.1) % w32mod,
   (st.2.2.1 + r.2.2.1) % w32mod, (st.2.2.2 + r.2.2.2) % w32mod)

/-- The `k` little-endian bytes of `n`. -/
def toLEBytes (k n : Nat) : List Nat :=
  (List.range k).map (fun i => (n >>> (8 * i)) % 256)

/-- MD5 padding: a `0x80` byte, zeros up to 56 mod 64, then the bit length
as 8 little-endian bytes. -/
def md5Pad (msg : List Nat) : List Nat :=
  msg ++ 128 :: (List.replicate ((119 - msg.length % 64) % 64) 0
    ++ toLEBytes 8 (msg.length * 8))

/-- The MD5 register initial values. -/
def md5IV : Nat × Nat × Nat × Nat :=
  (0x67452301, 0xefcdab89, 0x98badcfe, 0x10325476)

/-- The 16-byte MD5 digest of a byte sequence. -/
def md5Digest (msg : List Nat) : List Nat :=
  let padded := md5Pad msg
  let blocks := (List.range (padded.length / 64)).map
    (fun i => (padded.drop (64 * i)).take 64)
  let st := blocks.foldl md5Block md5IV
  toLEBytes 4 st.1 ++ toLEBytes 4 st.2.1
    ++ toLEBytes 4 st.2.2.1 ++ toLEBytes 4 st.2.2.2

/-- UTF-8 encoding of one code point, as in `str.encode("utf-8")`. -/
def utf8Char (n : Nat) : List Nat :=
  if n < 128 then [n]
  else if n < 2048 then [192 + n / 64, 128 + n % 64]
  else if n < 65536 then
    [224 + n / 4096, 128 + (n / 64) % 64, 128 + n % 64]
  else
    [240 + n / 262144, 128 + (n / 4096) % 64, 128 + (n / 64) % 64,
     128 + n % 64]

/-- UTF-8 bytes of a string (`rtsp_url.encode("utf-8")`). -/
def utf8Bytes (s : String) : List Nat :=
  s.data.foldr (fun c acc => utf8Char c.toNat ++ acc) []

/-- The sixteen lowercase hexadecimal digit characters. -/
def hexChars : List Char :=
  String.data "0123456789abcdef"

/-- Lowercase hex digit for a value below 16. -/
def hexDigitChar (n : Nat) : Char :=
  hexChars.getD n '0'

/-- Two lowercase hex characters per byte, as `hexdigest` renders them. -/
def hexOfBytes : List Nat → List Char
  | [] => []
  | b :: bs => hexDigitChar (b / 16) :: hexDigitChar (b % 16) :: hexOfBytes bs

/-- Characters of `hashlib.md5(url.encode("utf-8")).hexdigest()`. -/
def md5HexChars (url : String) : List Char :=
  hexOfBytes (md5Digest (utf8Bytes url))

/-- Characters of the device id: `hexdigest()[:16]` (line 234). -/
def deviceIdChars (url : String) : List Char :=
  (md5HexChars url).take 16

/-- The device id (equal to the client id) derived by
`build_mqtt_settings`. -/
def deviceId (url : String) : String :=
  String.mk (deviceIdChars url)

end RtspStreamer

namespace RtspStreamer

/-! ### Theorems about the shared source -/

theorem camStep_good (s : CamState) (op : CamOp) (h : camGood s) :
    camGood (camStep s op) := by
  obtain ⟨hp, hr⟩ := h
  cases op with
  | add =>
    simp only [camStep, addClient, startLocked, createPlayer]
    rcases Nat.eq_zero_or_pos s.activeClients with h0 | hpos
    · simp [h0] at hp hr
      simp [camGood, h0, hp, hr]
    · have h1 : ¬ (s.activeClients + 1 = 1) := by omega
      simp only [if_pos hpos] at hp hr
      simp [camGood, h1, hp, hr, Nat.succ_pos]
  | remove =>
    simp only [camStep, removeClient]
    rcases Nat.lt_or_ge 1 s.activeClients with h2 | h2
    · have hpos : 0 < s.activeClients := by omega
      have hne : ¬ (s.activeClients - 1 = 0) := by omega
      simp only [if_pos hpos] at hp hr
      simp [camGood, hne, hp, hr]
      omega
    · have hz : s.activeClients - 1 = 0 := by omega
      simp [camGood, hz, stopLocked]

theorem runOps_good (ops : List CamOp) : camGood (runOps ops) := by
  suffices h : ∀ s, camGood s → camGood (ops.foldl camStep s) from
    h initCam (by constructor <;> rfl)
  induction ops with
  | nil => intro s hs; exact hs
  | cons op rest ih =>
    intro s hs
    exact ih _ (camStep_good s op hs)

theorem camStep_counter (s : CamState) (op : CamOp) :
    (camStep s op).activeClients = satStep s.activeClients op := by
  cases op with
  | add =>
    simp only [camStep, addClient, startLocked, createPlayer, satStep]
    by_cases h : s.activeClients + 1 = 1 <;> by_cases h2 : (s.player).isNone <;>
      simp [h, h2]
  | remove =>
    simp only [camStep, removeClient, satStep, stopLocked]
    by_cases h : s.activeClients - 1 = 0 <;> simp [h]

theorem runOps_counter (ops : List CamOp) :
    (runOps ops).activeClients = satFold ops := by
  unfold runOps satFold
  suffices h : ∀ s : CamState,
      (ops.foldl camStep s).activeClients = ops.foldl satStep s.activeClients by
    exact h initCam
  induction ops with
  | nil => intro s; rfl
  | cons op rest ih =>
    intro s
    simpa [List.foldl_cons, camStep_counter s op] using ih (camStep s op)

theorem countAdds_append (l₁ l₂ : List CamOp) :
    countAdds (l₁ ++ l₂) = countAdds l₁ + countAdds l₂ := by
  simp [countAdds, List.countP_append]

theorem countRemoves_append (l₁ l₂ : List CamOp) :
    countRemoves (l₁ ++ l₂) = countRemoves l₁ + countRemoves l₂ := by
  simp [countRemoves, List.countP_append]

theorem satFold_append_single (l : List CamOp) (op : CamOp) :
    satFold (l ++ [op]) = satStep (satFold l) op := by
  simp [satFold, List.foldl_append]

/-- Under the no-underflow condition on every prefix, the saturating fold
computes adds minus removes. -/
theorem satFold_eq_sub (ops : List CamOp)
    (h : ∀ n, countRemoves (ops.take n) ≤ countAdds (ops.take n)) :
    satFold ops = countAdds ops - countRemoves ops
      ∧ countRemoves ops ≤ countAdds ops := by
  induction ops using List.reverseRecOn with
  | nil => simp [satFold, countAdds, countRemoves]
  | append_singleton l op ih =>
    have hpre : ∀ n, countRemoves (l.take n) ≤ countAdds (l.take n) := by
      intro n
      rcases Nat.lt_or_ge n l.length with hn | hn
      · have := h n
        rwa [List.take_append_of_le_length (by omega)] at this
      · have hl : l.take n = l := List.take_of_length_le (by omega)
        rw [hl]
        have := h l.length
        rwa [List.take_append_of_le_length (le_refl _), List.take_length] at this
    obtain ⟨ih1, ih2⟩ := ih hpre
    have hfull := h (l.length + 1)
    rw [List.take_of_length_le (by simp)] at hfull
    cases op with
    | add =>
      refine ⟨?_, ?_⟩
      · rw [satFold_append_single, countAdds_append, countRemoves_append]
        simp only [satStep, ih1]
        have : countAdds [CamOp.add] = 1 ∧ countRemoves [CamOp.add] = 0 := by
          constructor <;> rfl
        omega
      · rw [countAdds_append, countRemoves_append]
        have : countAdds [CamOp.add] = 1 ∧ countRemoves [CamOp.add] = 0 := by
          constructor <;> rfl
        omega
    | remove =>
      have hca : countAdds [CamOp.remove] = 0 ∧ countRemoves [CamOp.remove] = 1 := by
        constructor <;> rfl
      rw [countAdds_append, countRemoves_append] at hfull ⊢
      refine ⟨?_, by omega⟩
      rw [satFold_append_single]
      simp only [satStep, ih1]
      omega

/-- C1: for every finite sequence of `add_client`/`remove_client` calls
from the initial state, the `active_clients` counter equals adds minus
removes clamped at zero, and the puller is non-null exactly when the
counter is positive.  This fails: a `remove_client` at zero count is
ignored by the code, so a later `add_client` leaves the counter at 1
while adds minus removes clamped at zero is 0. -/
theorem c1_counterexample :
    (runOps [CamOp.remove, CamOp.add]).activeClients = 1
      ∧ countAdds [CamOp.remove, CamOp.add]
          - countRemoves [CamOp.remove, CamOp.add] = 0
      ∧ (runOps [CamOp.remove, CamOp.add]).activeClients
          ≠ countAdds [CamOp.remove, CamOp.add]
              - countRemoves [CamOp.remove, CamOp.add] := by
  refine ⟨by decide, by decide, by decide⟩

/-- C1 (amended): for every finite sequence of `add_client`/`remove_client`
calls from the initial state — underflowing sequences included — the
`active_clients` counter equals the fold of the sequence with increment
and zero-saturating decrement, and the puller handle `player` is non-null
exactly when the counter is positive; whenever no prefix of the sequence
has more removes than adds, the counter moreover equals adds minus
removes. -/
theorem c1_client_counter (ops : List CamOp) :
    (runOps ops).activeClients = satFold ops
      ∧ ((runOps ops).player.isSome ↔ 0 < (runOps ops).activeClients)
      ∧ ((∀ n, countRemoves (ops.take n) ≤ countAdds (ops.take n)) →
          (runOps ops).activeClients = countAdds ops - countRemoves ops) := by
  refine ⟨runOps_counter ops, ?_, ?_⟩
  · obtain ⟨hp, _⟩ := runOps_good ops
    rw [hp]
    by_cases hpos : 0 < (runOps ops).activeClients <;> simp [hpos]
  · intro h
    rw [runOps_counter ops, (satFold_eq_sub ops h).1]

/-- Witness for C1 (amended): the underflowing sequence remove, add
exercises the unconditional conjuncts (counter 1, puller live), and the
sequence add, add, remove discharges the no-underflow hypothesis of the
adds-minus-removes conjunct. -/
theorem c1_client_counter_witness :
    ((runOps [CamOp.remove, CamOp.add]).activeClients
          = satFold [CamOp.remove, CamOp.add]
        ∧ ((runOps [CamOp.remove, CamOp.add]).player.isSome
            ↔ 0 < (runOps [CamOp.remove, CamOp.add]).activeClients))
      ∧ (runOps [CamOp.add, CamOp.add, CamOp.remove]).activeClients
          = countAdds [CamOp.add, CamOp.add, CamOp.remove]
              - countRemoves [CamOp.add, CamOp.add, CamOp.remove] := by
  have hpre : ∀ n, countRemoves (([CamOp.add, CamOp.add, CamOp.remove]).take n)
      ≤ countAdds (([CamOp.add, CamOp.add, CamOp.remove]).take n) := by
    intro n
    match n with
    | 0 => decide
    | 1 => decide
    | 2 => decide
    | k + 3 =>
      rw [List.take_of_length_le (by simp)]
      decide
  have h1 := c1_client_counter [CamOp.remove, CamOp.add]
  have h2 := c1_client_counter [CamOp.add, CamOp.add, CamOp.remove]
  exact ⟨⟨h1.1, h1.2.1⟩, h2.2.2 hpre⟩

/-- C2: when puller creation fails, `add_client` propagates the error and
leaves `active_clients` equal to its value before the call.  This fails:
the code increments the counter before attempting to start the puller and
does not roll the increment back, so from the initial state the counter
ends at 1, not 0. -/
theorem c2_counterexample :
    (addClient false initCam).1 = true
      ∧ (addClient false initCam).2.activeClients = 1
      ∧ (addClient false initCam).2.activeClients ≠ initCam.activeClients := by
  refine ⟨by decide, by decide, by decide⟩

/-- C2 (amended): from any state with a null puller and a zero counter (so
that `add_client` attempts to start the puller), a failing puller creation
makes `add_client` raise to its caller, and the counter keeps the
increment: it equals its value before the call plus one, with the puller
still null. -/
theorem c2_create_failure (s : CamState)
    (hc : s.activeClients = 0) (hp : s.player = none) :
    (addClient false s).1 = true
      ∧ (addClient false s).2.activeClients = s.activeClients + 1
      ∧ (addClient false s).2.player = none := by
  simp [addClient, startLocked, createPlayer, hc, hp]

/-- Witness for C2 (amended) at the initial state. -/
theorem c2_create_failure_witness :
    (addClient false initCam).1 = true
      ∧ (addClient false initCam).2.activeClients = initCam.activeClients + 1
      ∧ (addClient false initCam).2.player = none :=
  c2_create_failure initCam rfl rfl

/-- C10: when the puller is null, `get_track` returns `(None, False)` for
either value of `use_relay` without raising; and whenever `get_track`
returns a non-null track the needs-stop component is `True`, in both the
relay branch and the non-buffered-wrapper branch. -/
theorem c10_get_track (s : CamState) (useRelay : Bool) :
    (s.player = none → getTrack useRelay s = (none, false))
      ∧ (∀ t : HandedTrack,
          (getTrack useRelay s).1 = some t → (getTrack useRelay s).2 = true) := by
  constructor
  · intro hp
    simp [getTrack, hp]
  · intro t ht
    unfold getTrack at ht ⊢
    cases hp : s.player with
    | none => simp [hp] at ht
    | some p =>
      cases hv : p.video with
      | none => simp [hp, hv] at ht
      | some _ =>
        by_cases hr : useRelay && s.relay.isSome <;> simp [hp, hv, hr]

/-- Witness for C10: a state with a live player and relay hands out a
relay track with needs-stop `True`, and the initial state (null puller)
yields `(None, False)`. -/
theorem c10_get_track_witness :
    (initCam.player = none → getTrack true initCam = (none, false))
      ∧ (∀ t : HandedTrack,
          (getTrack true initCam).1 = some t → (getTrack true initCam).2 = true) :=
  c10_get_track initCam true

/-! ### Theorems about remote ICE handling -/

theorem handleRemoteIce_unset (p : IcePayload) (hp : p.candidate ≠ none)
    (s : PeerIceState) (hc : s.connState = "new") (hr : s.remoteSet = false) :
    handleRemoteIce p s = { s with pending := s.pending ++ [candOf p] } := by
  obtain ⟨sdp, hsdp⟩ := Option.ne_none_iff_exists'.mp hp
  simp [handleRemoteIce, hsdp, hc, hr, candOf]

theorem handleRemoteIce_set (p : IcePayload) (hp : p.candidate ≠ none)
    (s : PeerIceState) (hc : s.connState = "new") (hr : s.remoteSet = true) :
    handleRemoteIce p s = { s with applied := s.applied ++ [candOf p] } := by
  obtain ⟨sdp, hsdp⟩ := Option.ne_none_iff_exists'.mp hp
  simp [handleRemoteIce, hsdp, hc, hr, candOf]

theorem runIce_unset (ps : List IcePayload) (hps : ∀ p ∈ ps, p.candidate ≠ none)
    (s : PeerIceState) (hc : s.connState = "new") (hr : s.remoteSet = false) :
    runIce ps s = { s with pending := s.pending ++ ps.map candOf } := by
  induction ps generalizing s with
  | nil => simp [runIce]
  | cons p rest ih =>
    have hstep := handleRemoteIce_unset p (hps p (by simp)) s hc hr
    have htail := ih (fun q hq => hps q (by simp [hq]))
      { s with pending := s.pending ++ [candOf p] } hc hr
    simp only [runIce, List.foldl_cons] at htail ⊢
    rw [hstep, htail]
    simp

theorem runIce_set (ps : List IcePayload) (hps : ∀ p ∈ ps, p.candidate ≠ none)
    (s : PeerIceState) (hc : s.connState = "new") (hr : s.remoteSet = true) :
    runIce ps s = { s with applied := s.applied ++ ps.map candOf } := by
  induction ps generalizing s with
  | nil => simp [runIce]
  | cons p rest ih =>
    have hstep := handleRemoteIce_set p (hps p (by simp)) s hc hr
    have htail := ih (fun q hq => hps q (by simp [hq]))
      { s with applied := s.applied ++ [candOf p] } hc hr
    simp only [runIce, List.foldl_cons] at htail ⊢
    rw [hstep, htail]
    simp

/-- C3: in a fresh session whose connection stays in state `new` during
signaling, every (non-sentinel) candidate received while the remote
description is unset is appended to the pending queue in arrival order and
none is applied; the `setRemoteDescription` step then applies exactly the
queued candidates, in arrival order, leaving the queue empty; candidates
received afterwards are applied immediately, so the final applied sequence
is the pre-offer candidates followed by the post-offer candidates, each
exactly once, with an empty queue. -/
theorem c3_ice_ordering (pre post : List IcePayload)
    (hpre : ∀ p ∈ pre, p.candidate ≠ none)
    (hpost : ∀ p ∈ post, p.candidate ≠ none) :
    (runIce pre freshPeer).pending = pre.map candOf
      ∧ (runIce pre freshPeer).applied = []
      ∧ (setRemoteAndFlush (runIce pre freshPeer)).applied = pre.map candOf
      ∧ (setRemoteAndFlush (runIce pre freshPeer)).pending = []
      ∧ (runIce post (setRemoteAndFlush (runIce pre freshPeer))).applied
          = pre.map candOf ++ post.map candOf
      ∧ (runIce post (setRemoteAndFlush (runIce pre freshPeer))).pending = [] := by
  have h1 := runIce_unset pre hpre freshPeer rfl rfl
  have hs2 : setRemoteAndFlush (runIce pre freshPeer)
      = { connState := "new", remoteSet := true, pending := [],
          applied := pre.map candOf } := by
    rw [h1]; simp [setRemoteAndFlush, freshPeer]
  have h3 := runIce_set post hpost (setRemoteAndFlush (runIce pre freshPeer))
    (by rw [hs2]) (by rw [hs2])
  refine ⟨by rw [h1]; simp [freshPeer], by rw [h1]; simp [freshPeer],
    by rw [hs2], by rw [hs2], ?_, ?_⟩
  · rw [h3, hs2]
  · rw [h3, hs2]

/-- Witness for C3 at two concrete pre-offer candidates and one
post-offer candidate. -/
theorem c3_ice_ordering_witness :
    (runIce [⟨some "cand2", some "0", some 0⟩]
        (setRemoteAndFlush (runIce
          [⟨some "cand0", some "0", some 0⟩, ⟨some "a=cand1", none, none⟩]
          freshPeer))).applied
      = ([⟨some "cand0", some "0", some 0⟩,
          (⟨some "a=cand1", none, none⟩ : IcePayload)]).map candOf
          ++ ([(⟨some "cand2", some "0", some 0⟩ : IcePayload)]).map candOf := by
  have h := c3_ice_ordering
    [⟨some "cand0", some "0", some 0⟩, ⟨some "a=cand1", none, none⟩]
    [⟨some "cand2", some "0", some 0⟩]
    (by intro p hp; fin_cases hp <;> simp)
    (by intro p hp; fin_cases hp <;> simp)
  exact h.2.2.2.2.1

/-! ### Theorems about per-session teardown -/

/-- C5: in every execution of `_cleanup_peer` with a per-session track and
a shared source present, the trace of steps is exactly the program-order
sequence (for either outcome of the close timeout) — so the track stop
strictly precedes the peer-connection close, and `remove_client` strictly
follows the completion (or 2-second timeout) of the close. -/
theorem c5_cleanup_order (hasRelayTrack hasCamera closeTimedOut : Bool)
    (hr : hasRelayTrack = true) (hc : hasCamera = true) :
    cleanupTrace hasRelayTrack hasCamera closeTimedOut
        = [CleanupStep.relayTrackStop, CleanupStep.transceiverStop,
           CleanupStep.pcClose closeTimedOut, CleanupStep.clearPendingIce,
           CleanupStep.removeClientCall, CleanupStep.drainSleep,
           CleanupStep.gcCollect]
      ∧ (cleanupTrace hasRelayTrack hasCamera closeTimedOut).findIdx isTrackStop
          < (cleanupTrace hasRelayTrack hasCamera closeTimedOut).findIdx isPcClose
      ∧ (cleanupTrace hasRelayTrack hasCamera closeTimedOut).findIdx isPcClose
          < (cleanupTrace hasRelayTrack hasCamera closeTimedOut).findIdx
              isRemoveClient := by
  subst hr hc
  cases closeTimedOut <;> exact ⟨rfl, by decide, by decide⟩

/-- Witness for C5 with a relay track, a camera, and a clean close. -/
theorem c5_cleanup_order_witness :
    cleanupTrace true true false
        = [CleanupStep.relayTrackStop, CleanupStep.transceiverStop,
           CleanupStep.pcClose false, CleanupStep.clearPendingIce,
           CleanupStep.removeClientCall, CleanupStep.drainSleep,
           CleanupStep.gcCollect]
      ∧ (cleanupTrace true true false).findIdx isTrackStop
          < (cleanupTrace true true false).findIdx isPcClose
      ∧ (cleanupTrace true true false).findIdx isPcClose
          < (cleanupTrace true true false).findIdx isRemoveClient :=
  c5_cleanup_order true true false rfl rfl

/-! ### Theorems about ICE server configuration -/

/-- C4: `build_ice_servers` is claimed to return exactly the single
default STUN server `stun:stun.l.google.com:19302` both when the
`ice_servers` key is absent and when it is present as an empty list.  The
code satisfies this only for the empty list: when the key is absent the
`add_default` flag is never set and the function returns an empty list,
even though its own log message in the default branch reads
`no ice_servers found in config`.  Spec and claim state the intended
behaviour; the code diverges on the absent case. -/
theorem c4_default_stun :
    buildIceServers (.entries []) = [defaultStunServer]
      ∧ buildIceServers .absent = []
      ∧ buildIceServers .absent ≠ [defaultStunServer] := by
  refine ⟨by decide, by decide, by decide⟩

/-! ### Theorems about the non-buffered wrapper track -/

theorem recvFuel_waits (n : Nat) (s : TrackState)
    (hf : s.latestFrame = none) (hs : s.stopping = false) :
    recvFuel n s = none := by
  induction n with
  | zero => rfl
  | succ k ih =>
    simp only [recvFuel, hf, hs, Option.isNone_none, Bool.not_false,
      Bool.and_self, if_pos]
    exact ih

/-- C6: after the upstream track of a non-buffered wrapper errors or
ends, a call to the wrapper's `recv` is claimed to fail with a track-ended
error.  This fails: `_fetch_frames` clears `_latest_frame` and exits
without setting `_stopping`, so `recv` spins in its polling loop forever —
it neither raises nor returns a frame, for any number of iterations.
Concretely, from a wrapper that has relayed frame 7, after the upstream
error no amount of fuel makes `recv` complete. -/
theorem c6_counterexample :
    ¬ ∃ (n : Nat) (r : RecvOutcome),
        recvFuel n (upstreamEnds (frameArrives 7 initTrack)) = some r := by
  rintro ⟨n, r, h⟩
  rw [recvFuel_waits n _ rfl rfl] at h
  exact Option.noConfusion h

/-- C6 (amended): if the wrapper itself is stopped (`stop()`), a
subsequent `recv` call fails with the exception
`Track stopped before receiving frames` instead of returning a frame; but
if the upstream track merely errors or ends while `stop()` has not been
called, `recv` never completes — it neither fails nor returns a frame,
however long it polls. -/
theorem c6_recv_after_end (s : TrackState) (n : Nat) (hn : 0 < n)
    (hs : s.stopping = false) :
    recvFuel n (stopTrack s) = some (.raised "Track stopped before receiving frames")
      ∧ recvFuel n (upstreamEnds s) = none := by
  constructor
  · match n, hn with
    | k + 1, _ => simp [recvFuel, stopTrack]
  · exact recvFuel_waits n _ rfl (by simp [upstreamEnds, hs])

/-- Witness for C6 (amended) at the fresh wrapper state with one polling
iteration. -/
theorem c6_recv_after_end_witness :
    recvFuel 1 (stopTrack initTrack)
        = some (.raised "Track stopped before receiving frames")
      ∧ recvFuel 1 (upstreamEnds initTrack) = none :=
  c6_recv_after_end initTrack 1 (by decide) rfl

/-! ### Theorems about status payloads -/

/-- C7: every status published while connected is claimed to carry the
four keys `device_id`, `device_type`, `ts`, `status` — including the final
shutdown status.  This fails: the shutdown status built in `run_app`
omits `device_type`.  Concretely, with the transport connected and the
publisher open, the shutdown publish happens and its payload lacks
`device_type`. -/
theorem c7_counterexample :
    publishShutdown true false "f8bbb72fe50be40b" 1700000000
        = some (statusTopic "f8bbb72fe50be40b",
                shutdownStatusPayload "f8bbb72fe50be40b" 1700000000)
      ∧ hasKey (shutdownStatusPayload "f8bbb72fe50be40b" 1700000000)
          "device_type" = false
      ∧ hasAllRequiredKeys (shutdownStatusPayload "f8bbb72fe50be40b" 1700000000)
          = false := by
  refine ⟨by decide, by decide, by decide⟩

/-- C7 (amended): every periodic status published while the transport is
connected (via `_publish`) carries all four required keys; the final
shutdown status, also published only while connected, carries `device_id`,
`ts` and `status` with status value `shutdown`, but not `device_type`. -/
theorem c7_status_keys :
    (∀ (connected closed : Bool) (d : String) (ts : Nat) (cr : Option Bool)
        (t : String) (p : List (String × JsonVal)),
        publishPeriodic connected closed d ts cr = some (t, p) →
          hasAllRequiredKeys p = true)
      ∧ (∀ (connected closed : Bool) (d : String) (ts : Nat)
          (t : String) (p : List (String × JsonVal)),
          publishShutdown connected closed d ts = some (t, p) →
            hasKey p "device_id" = true ∧ hasKey p "ts" = true
              ∧ hasKey p "status" = true ∧ hasKey p "device_type" = false
              ∧ p.contains ("status", .str "shutdown") = true) := by
  constructor
  · intro connected closed d ts cr t p h
    unfold publishPeriodic at h
    split at h
    · obtain ⟨rfl, rfl⟩ := Prod.mk.injEq .. ▸ Option.some.injEq .. ▸ h
      cases cr <;> simp [hasAllRequiredKeys, requiredStatusKeys, hasKey,
        periodicStatusPayload]
    · exact Option.noConfusion h
  · intro connected closed d ts t p h
    unfold publishShutdown at h
    split at h
    · obtain ⟨rfl, rfl⟩ := Prod.mk.injEq .. ▸ Option.some.injEq .. ▸ h
      simp [hasKey, shutdownStatusPayload]
    · exact Option.noConfusion h

/-- Witness for C7 (amended): a connected periodic publish carries the
four keys; a connected shutdown publish lacks `device_type`. -/
theorem c7_status_keys_witness :
    hasAllRequiredKeys (periodicStatusPayload "dev" 5 (some true)) = true
      ∧ hasKey (shutdownStatusPayload "dev" 5) "device_type" = false := by
  refine ⟨c7_status_keys.1 true false "dev" 5 (some true) _ _ rfl, ?_⟩
  exact (c7_status_keys.2 true false "dev" 5 _ _ rfl).2.2.2.1

/-! ### Theorems about topic matching -/

theorem stripLit_sound (lit : List Char) :
    ∀ l r : List Char, stripLit lit l = some r → l = lit ++ r := by
  induction lit with
  | nil =>
    intro l r h
    simp only [stripLit, Option.some.injEq] at h
    simp [h]
  | cons p ps ih =>
    intro l r h
    cases l with
    | nil => exact Option.noConfusion h
    | cons c cs =>
      simp only [stripLit] at h
      by_cases hc : (c == p) = true
      · rw [if_pos hc] at h
        rw [List.cons_append, ← ih cs r h, eq_of_beq hc]
      · rw [if_neg hc] at h
        exact Option.noConfusion h

theorem stripLit_complete (lit : List Char) :
    ∀ r : List Char, stripLit lit (lit ++ r) = some r := by
  induction lit with
  | nil => intro r; rfl
  | cons p ps ih =>
    intro r
    simp [stripLit, ih r]

theorem takeWhile_app_stop (p : Char → Bool) (xs : List Char) (y : Char)
    (ys : List Char) (hxs : ∀ x ∈ xs, p x = true) (hy : p y = false) :
    (xs ++ y :: ys).takeWhile p = xs
      ∧ (xs ++ y :: ys).dropWhile p = y :: ys := by
  induction xs with
  | nil => simp [List.takeWhile_cons, List.dropWhile_cons, hy]
  | cons x xs ih =>
    have hx : p x = true := hxs x (by simp)
    have ih' := ih (fun z hz => hxs z (by simp [hz]))
    simp [List.takeWhile_cons, List.dropWhile_cons, hx, ih'.1, ih'.2]

theorem mem_takeWhile_pred (p : Char → Bool) :
    ∀ l : List Char, ∀ x ∈ l.takeWhile p, p x = true := by
  intro l
  induction l with
  | nil => intro x hx; simp [List.takeWhile] at hx
  | cons c cs ih =>
    intro x hx
    rw [List.takeWhile_cons] at hx
    by_cases hc : p c
    · rw [if_pos hc] at hx
      rcases List.mem_cons.mp hx with rfl | hx
      · exact hc
      · exact ih x hx
    · rw [if_neg hc] at hx
      exact absurd hx (List.not_mem_nil x)

/-- C8: viewer-id extraction is claimed to succeed exactly on topics of
the whole-string forms `<device>/sdp/<id>/offer` and
`<device>/ice/<id>/offer` with `<id>` over `[0-9A-Za-z_-]+`.  This fails:
the id group of the compiled patterns is `[^/]+` (any non-slash run) and
`re.match` does not anchor the end of the string, so the topic
`dev/sdp/a.b/offerx` — not of the claimed form — still extracts viewer id
`a.b`. -/
theorem c8_counterexample :
    matchOfferTopic sdpLit ("dev/sdp/a.b/offerx".data)
        = some ("dev".data, "a.b".data)
      ∧ claimFormTopic sdpLit ("dev/sdp/a.b/offerx".data) = false := by
  refine ⟨by decide, by decide⟩

/-- C8 (amended): for either pattern segment (`sdp` for
`SDP_OFFER_PATTERN`, `ice` for `ICE_OFFER_PATTERN`), viewer-id extraction
succeeds exactly on the topics that start with
`<device>/<segment>/<id>/offer` — with arbitrary trailing characters —
where `<device>` is a nonempty run over `[0-9A-Za-z_-]` and `<id>` is a
nonempty run of non-slash characters; the extracted pair is then exactly
(`<device>`, `<id>`). -/
theorem c8_topic_extraction (mid cs dev vid : List Char) :
    matchOfferTopic mid cs = some (dev, vid) ↔
      (dev ≠ [] ∧ (∀ c ∈ dev, idChar c = true) ∧ vid ≠ []
        ∧ (∀ c ∈ vid, (c == '/') = false)
        ∧ ∃ rest, cs
            = dev ++ ('/' :: (mid ++ ('/' :: (vid
                ++ ('/' :: (offerLit ++ rest))))))) := by
  constructor
  · intro h
    simp only [matchOfferTopic] at h
    by_cases h1 : (cs.takeWhile idChar).isEmpty = true
    · rw [if_pos h1] at h
      exact Option.noConfusion h
    rw [if_neg h1] at h
    cases hs1 : stripLit ('/' :: mid ++ ['/']) (cs.dropWhile idChar) with
    | none =>
      rw [hs1] at h
      exact Option.noConfusion h
    | some r2 =>
      rw [hs1] at h
      dsimp only at h
      by_cases h2 : (r2.takeWhile (fun c => !(c == '/'))).isEmpty = true
      · rw [if_pos h2] at h
        exact Option.noConfusion h
      rw [if_neg h2] at h
      cases hs2 : stripLit ('/' :: offerLit)
          (r2.dropWhile (fun c => !(c == '/'))) with
      | none =>
        rw [hs2] at h
        exact Option.noConfusion h
      | some tail =>
        rw [hs2] at h
        dsimp only at h
        have hdev : cs.takeWhile idChar = dev := congrArg Prod.fst
          (Option.some.inj h)
        have hvid : r2.takeWhile (fun c => !(c == '/')) = vid := congrArg Prod.snd
          (Option.some.inj h)
        refine ⟨?_, ?_, ?_, ?_, tail, ?_⟩
        · intro hd
          exact h1 (by rw [hdev, hd]; rfl)
        · intro c hc
          rw [← hdev] at hc
          exact mem_takeWhile_pred idChar cs c hc
        · intro hv
          exact h2 (by rw [hvid, hv]; rfl)
        · intro c hc
          rw [← hvid] at hc
          have := mem_takeWhile_pred (fun c => !(c == '/')) r2 c hc
          simpa using this
        · have e1 : cs = cs.takeWhile idChar ++ cs.dropWhile idChar :=
            (List.takeWhile_append_dropWhile idChar cs).symm
          have e2 := stripLit_sound _ _ _ hs1
          have e3 : r2 = r2.takeWhile (fun c => !(c == '/'))
              ++ r2.dropWhile (fun c => !(c == '/')) :=
            (List.takeWhile_append_dropWhile (fun c => !(c == '/')) r2).symm
          have e4 := stripLit_sound _ _ _ hs2
          rw [← hdev, ← hvid]
          calc cs = cs.takeWhile idChar ++ cs.dropWhile idChar := e1
            _ = cs.takeWhile idChar ++ (('/' :: mid ++ ['/']) ++ r2) := by
                rw [← e2]
            _ = cs.takeWhile idChar ++ (('/' :: mid ++ ['/'])
                ++ (r2.takeWhile (fun c => !(c == '/'))
                    ++ (('/' :: offerLit) ++ tail))) := by
                rw [← e4, ← e3]
          simp [List.append_assoc]
  · rintro ⟨hdev, hdevall, hvid, hvidall, rest, rfl⟩
    have hdevE : dev.isEmpty = false := by
      cases dev with
      | nil => exact absurd rfl hdev
      | cons a l => rfl
    have hvidE : vid.isEmpty = false := by
      cases vid with
      | nil => exact absurd rfl hvid
      | cons a l => rfl
    have hslash : idChar '/' = false := by decide
    have t1 := takeWhile_app_stop idChar dev '/'
      (mid ++ ('/' :: (vid ++ ('/' :: (offerLit ++ rest))))) hdevall hslash
    have hq : ∀ c ∈ vid, (fun c => !(c == '/')) c = true := by
      intro c hc
      simp [hvidall c hc]
    have t2 := takeWhile_app_stop (fun c => !(c == '/')) vid '/'
      (offerLit ++ rest) hq (by decide)
    have esplit : ('/' :: (mid ++ ('/' :: (vid ++ ('/' :: (offerLit ++ rest))))))
        = ('/' :: mid ++ ['/']) ++ (vid ++ ('/' :: (offerLit ++ rest))) := by
      simp [List.append_assoc]
    have esplit2 : ('/' :: (offerLit ++ rest)) = ('/' :: offerLit) ++ rest := rfl
    simp only [matchOfferTopic]
    rw [t1.1, t1.2, esplit, stripLit_complete]
    dsimp only
    rw [t2.1, t2.2, esplit2, stripLit_complete]
    simp [hdevE, hvidE]

/-- Witness for C8 (amended): a well-formed sdp offer topic extracts its
device and viewer-id segments. -/
theorem c8_topic_extraction_witness :
    matchOfferTopic sdpLit ("dev/sdp/abc/offer".data)
      = some ("dev".data, "abc".data) :=
  (c8_topic_extraction sdpLit ("dev/sdp/abc/offer".data) ("dev".data)
      ("abc".data)).mpr
    ⟨by decide, by decide, by decide, by decide, [], by decide⟩

/-! ### Theorems about device identity -/

theorem length_toLEBytes (k n : Nat) : (toLEBytes k n).length = k := by
  simp [toLEBytes]

theorem length_md5Digest (msg : List Nat) : (md5Digest msg).length = 16 := by
  simp [md5Digest, length_toLEBytes]

theorem length_hexOfBytes (bs : List Nat) :
    (hexOfBytes bs).length = 2 * bs.length := by
  induction bs with
  | nil => rfl
  | cons b bs ih =>
    simp only [hexOfBytes, List.length_cons, ih]
    ring

theorem hexDigitChar_mem (n : Nat) : hexDigitChar n ∈ hexChars := by
  rcases Nat.lt_or_ge n 16 with h | h
  · interval_cases n <;> decide
  · have hlen : hexChars.length ≤ n := by
      have h16 : hexChars.length = 16 := rfl
      omega
    rw [hexDigitChar, List.getD_eq_default _ _ hlen]
    decide

theorem mem_hexOfBytes (bs : List Nat) (c : Char) (h : c ∈ hexOfBytes bs) :
    c ∈ hexChars := by
  induction bs with
  | nil => simp [hexOfBytes] at h
  | cons b bs ih =>
    simp only [hexOfBytes, List.mem_cons] at h
    rcases h with rfl | rfl | h
    · exact hexDigitChar_mem _
    · exact hexDigitChar_mem _
    · exact ih h

/-- C9: device-id derivation is the pure function taking an RTSP URL to
the first 16 hex digits of the MD5 digest of its UTF-8 bytes: the result
always has 16 lowercase hexadecimal characters; identical URLs give
identical ids; and for `rtsp://203.0.113.1/stream` the id is
`f8bbb72fe50be40b`, whose first 8 hex digits are the first 8 hex digits of
the full MD5 hexdigest of that URL. -/
theorem c9_device_id :
    (∀ url : String, (deviceIdChars url).length = 16
        ∧ ∀ c ∈ deviceIdChars url, c ∈ hexChars)
      ∧ (∀ u v : String, u = v → deviceId u = deviceId v)
      ∧ deviceId "rtsp://203.0.113.1/stream" = "f8bbb72fe50be40b"
      ∧ (deviceIdChars "rtsp://203.0.113.1/stream").take 8
          = (md5HexChars "rtsp://203.0.113.1/stream").take 8 := by
  refine ⟨?_, ?_, ?_, ?_⟩
  · intro url
    constructor
    · have h32 : (md5HexChars url).length = 32 := by
        rw [md5HexChars, length_hexOfBytes, length_md5Digest]
      rw [deviceIdChars, List.length_take, h32]
      omega
    · intro c hc
      exact mem_hexOfBytes _ c (List.take_subset 16 _ hc)
  · intro u v h
    rw [h]
  · decide
  · rw [deviceIdChars, List.take_take]
    norm_num

/-- Witness for C9 at a concrete URL. -/
theorem c9_device_id_witness :
    (deviceIdChars "rtsp://cam").length = 16
      ∧ deviceId "rtsp://cam" = deviceId "rtsp://cam" :=
  ⟨(c9_device_id.1 "rtsp://cam").1,
    c9_device_id.2.1 "rtsp://cam" "rtsp://cam" rfl⟩

end RtspStreamer
